import Mathlib

/-!
# Verification of the `slacker` channel-digest pipeline

A shallow embedding, in Lean 4, of `src/slacker.py`: a four-stage pipeline
(fetch Slack messages, generate a digest via an LLM service, write an artifact
file, optionally publish blocks back to Slack).  Python strings are modelled
as `List Char`; the two vendor clients (Slack, Anthropic) are modelled as
oracles supplying the observable outcome of each network call; the `json`
standard library (`json.loads` / `json.dumps(-, indent := 2)`) is modelled
concretely on the JSON fragment the program produces and consumes (no
floating-point literals, and a lone `\uXXXX` surrogate escape — which the
program never emits — is treated as a parse failure).

Definitions keep the source's names (`fetch_messages`, `generate_summary`,
`save_to_file`, `format_slack_message`, `post_to_slack`, `process_channel`).
-/

/-- Convert a Lean string literal to the `List Char` representation used for
Python strings throughout this file. -/
def strL (s : String) : List Char := s.data

/-- Decimal digits of a natural number (used for epoch timestamps and JSON
integers). -/
def natChars (n : Nat) : List Char := Nat.toDigits 10 n

/-- Python `str`/`json.dumps` rendering of an integer. -/
def intChars (i : Int) : List Char :=
  if i < 0 then '-' :: natChars i.natAbs else natChars i.natAbs

/-! ## JSON values

`JVal` models the Python values produced by `json.loads`: `None`, booleans,
integers, strings, lists and (insertion-ordered) dicts. -/

/-- A JSON value as produced by Python's `json.loads` (restricted to integer
numbers; the program only ever produces and consumes strings, arrays and
objects). -/
inductive JVal where
  | jnull : JVal
  | jbool : Bool → JVal
  | jnum : Int → JVal
  | jstr : List Char → JVal
  | jarr : List JVal → JVal
  | jobj : List (List Char × JVal) → JVal

open JVal

mutual

/-- Structural equality test on JSON values. -/
def JVal.beq : JVal → JVal → Bool
  | jnull, jnull => true
  | jbool a, jbool b => a = b
  | jnum a, jnum b => a = b
  | jstr a, jstr b => a = b
  | jarr a, jarr b => beqArr a b
  | jobj a, jobj b => beqObj a b
  | _, _ => false

/-- Equality test on JSON arrays. -/
def beqArr : List JVal → List JVal → Bool
  | [], [] => true
  | x :: xs, y :: ys => JVal.beq x y && beqArr xs ys
  | _, _ => false

/-- Equality test on JSON object member lists. -/
def beqObj : List (List Char × JVal) → List (List Char × JVal) → Bool
  | [], [] => true
  | (k₁, v₁) :: xs, (k₂, v₂) :: ys => k₁ = k₂ && JVal.beq v₁ v₂ && beqObj xs ys
  | _, _ => false

end

mutual

theorem JVal.beq_iff : ∀ a b : JVal, JVal.beq a b = true ↔ a = b
  | jnull, jnull => by simp [JVal.beq]
  | jbool a, jbool b => by simp [JVal.beq]
  | jnum a, jnum b => by simp [JVal.beq]
  | jstr a, jstr b => by simp [JVal.beq]
  | jarr a, jarr b => by simp [JVal.beq, beqArr_iff a b]
  | jobj a, jobj b => by simp [JVal.beq, beqObj_iff a b]
  | jnull, jbool _ | jnull, jnum _ | jnull, jstr _ | jnull, jarr _ | jnull, jobj _
  | jbool _, jnull | jbool _, jnum _ | jbool _, jstr _ | jbool _, jarr _ | jbool _, jobj _
  | jnum _, jnull | jnum _, jbool _ | jnum _, jstr _ | jnum _, jarr _ | jnum _, jobj _
  | jstr _, jnull | jstr _, jbool _ | jstr _, jnum _ | jstr _, jarr _ | jstr _, jobj _
  | jarr _, jnull | jarr _, jbool _ | jarr _, jnum _ | jarr _, jstr _ | jarr _, jobj _
  | jobj _, jnull | jobj _, jbool _ | jobj _, jnum _ | jobj _, jstr _ | jobj _, jarr _ => by
    simp [JVal.beq]

theorem beqArr_iff : ∀ a b : List JVal, beqArr a b = true ↔ a = b
  | [], [] => by simp [beqArr]
  | x :: xs, y :: ys => by
    simp [beqArr, JVal.beq_iff x y, beqArr_iff xs ys]
  | [], _ :: _ => by simp [beqArr]
  | _ :: _, [] => by simp [beqArr]

theorem beqObj_iff : ∀ a b : List (List Char × JVal), beqObj a b = true ↔ a = b
  | [], [] => by simp [beqObj]
  | (k₁, v₁) :: xs, (k₂, v₂) :: ys => by
    simp [beqObj, JVal.beq_iff v₁ v₂, beqObj_iff xs ys, and_assoc]
  | [], _ :: _ => by simp [beqObj]
  | _ :: _, [] => by simp [beqObj]

end

instance : DecidableEq JVal := fun a b => decidable_of_iff _ (JVal.beq_iff a b)

/-- Key lookup in a JSON object (Python `dict` subscript). -/
def objLookup (k : List Char) : List (List Char × JVal) → Option JVal
  | [] => none
  | (k', v) :: rest => if k' = k then some v else objLookup k rest

/-- Python `dict` insertion semantics used by the JSON decoder: a repeated key
keeps its original position but takes the new value. -/
def objInsert (l : List (List Char × JVal)) (k : List Char) (v : JVal) :
    List (List Char × JVal) :=
  if l.any (fun p => p.1 = k) then
    l.map (fun p => if p.1 = k then (k, v) else p)
  else
    l ++ [(k, v)]

/-- Python truthiness of a `JVal` (used by `if summary:`,
`if summary_data["action_items"]:`, ...). -/
def pyTruthy : JVal → Bool
  | jnull => false
  | jbool b => b
  | jnum n => n ≠ 0
  | jstr s => !s.isEmpty
  | jarr l => !l.isEmpty
  | jobj l => !l.isEmpty

/-! ## String escaping (`json.dumps`, default `ensure_ascii=True`) -/

/-- Lowercase hexadecimal digit. -/
def hexDig (n : Nat) : Char :=
  if n < 10 then Char.ofNat (48 + n) else Char.ofNat (87 + n)

/-- Four lowercase hex digits, most significant first (the `XXXX` of a
`\uXXXX` escape). -/
def hex4 (n : Nat) : List Char :=
  [hexDig (n / 4096 % 16), hexDig (n / 256 % 16), hexDig (n / 16 % 16),
   hexDig (n % 16)]

/-- Escape of a single character, as performed by `json.dumps` with the
default `ensure_ascii=True`: the seven short escapes, `\u00XX` for the other
control characters, printable ASCII verbatim, `\uXXXX` for other BMP
characters, and a surrogate pair for astral characters. -/
def escChar (c : Char) : List Char :=
  if c = '"' then ['\\', '"']
  else if c = '\\' then ['\\', '\\']
  else if c = '\n' then ['\\', 'n']
  else if c = '\t' then ['\\', 't']
  else if c = '\r' then ['\\', 'r']
  else if c = Char.ofNat 8 then ['\\', 'b']
  else if c = Char.ofNat 12 then ['\\', 'f']
  else if c.toNat < 0x20 then '\\' :: 'u' :: hex4 c.toNat
  else if c.toNat < 0x7f then [c]
  else if c.toNat < 0x10000 then '\\' :: 'u' :: hex4 c.toNat
  else
    ('\\' :: 'u' :: hex4 (0xd800 + (c.toNat - 0x10000) / 0x400)) ++
    ('\\' :: 'u' :: hex4 (0xdc00 + (c.toNat - 0x10000) % 0x400))

/-- Escape of a whole string (body of a JSON string literal). -/
def escape (s : List Char) : List Char := s.flatMap escChar

/-! ## JSON string literal decoding (`json.loads`)

Decoding is split in two structural passes: `parseRawUnits` turns the literal
body into a list of code points / UTF-16 code units (each `\uXXXX` escape
contributing its raw 16-bit value), and `combineSurrogates` pairs up
surrogates.  Python's decoder tolerates lone surrogates; this model rejects
them (the encoder never produces them). -/

/-- Value of one hex digit, upper or lower case. -/
def hexVal (c : Char) : Option Nat :=
  if 48 ≤ c.toNat ∧ c.toNat ≤ 57 then some (c.toNat - 48)
  else if 97 ≤ c.toNat ∧ c.toNat ≤ 102 then some (c.toNat - 87)
  else if 65 ≤ c.toNat ∧ c.toNat ≤ 70 then some (c.toNat - 55)
  else none

/-- Value of a short escape character (the character after a backslash). -/
def unescChar (e : Char) : Option Nat :=
  if e = '"' then some 0x22
  else if e = '\\' then some 0x5c
  else if e = '/' then some 0x2f
  else if e = 'b' then some 8
  else if e = 'f' then some 12
  else if e = 'n' then some 10
  else if e = 'r' then some 13
  else if e = 't' then some 9
  else none

mutual

/-- First decoding pass over the body of a JSON string literal: returns the
code units up to the closing quote, and the input after it.  Unescaped
control characters are rejected (Python's `strict=True`). -/
def parseRawUnits : List Char → Option (List Nat × List Char)
  | [] => none
  | c :: rest =>
    if c = '"' then some ([], rest)
    else if c = '\\' then parseEscape rest
    else if c.toNat < 0x20 then none
    else (parseRawUnits rest).map (fun p => (c.toNat :: p.1, p.2))

/-- Decode what follows a backslash: a `\uXXXX` escape or a short escape. -/
def parseEscape : List Char → Option (List Nat × List Char)
  | [] => none
  | e :: r2 =>
    if e = 'u' then parseHex4Units r2
    else
      match unescChar e with
      | some u => (parseRawUnits r2).map (fun p => (u :: p.1, p.2))
      | none => none

/-- Decode the four hex digits of a `\uXXXX` escape and continue. -/
def parseHex4Units : List Char → Option (List Nat × List Char)
  | a :: b :: c2 :: d :: r3 =>
    match hexVal a, hexVal b, hexVal c2, hexVal d with
    | some va, some vb, some vc, some vd =>
      (parseRawUnits r3).map
        (fun p => ((((va * 16 + vb) * 16 + vc) * 16 + vd) :: p.1, p.2))
    | _, _, _, _ => none
  | _ => none

end

mutual

/-- Second decoding pass: combine surrogate pairs into code points.  A lone
surrogate is rejected (see module comment). -/
def combineSurrogates : List Nat → Option (List Char)
  | [] => some []
  | n :: rest =>
    if 0xd800 ≤ n ∧ n ≤ 0xdbff then combineLow n rest
    else if 0xdc00 ≤ n ∧ n ≤ 0xdfff then none
    else (combineSurrogates rest).map (fun s => Char.ofNat n :: s)

/-- Combine a high surrogate with the following low surrogate. -/
def combineLow (n : Nat) : List Nat → Option (List Char)
  | [] => none
  | m :: r =>
    if 0xdc00 ≤ m ∧ m ≤ 0xdfff then
      (combineSurrogates r).map
        (fun s => Char.ofNat ((n - 0xd800) * 0x400 + (m - 0xdc00) + 0x10000) :: s)
    else none

end

/-- Decode the body of a JSON string literal (input starts right after the
opening quote); returns the decoded string and the input after the closing
quote. -/
def parseStringBody (l : List Char) : Option (List Char × List Char) :=
  (parseRawUnits l).bind
    (fun p => (combineSurrogates p.1).map (fun s => (s, p.2)))

/-! ## JSON value parsing (`json.loads`) -/

/-- JSON whitespace. -/
def wsChar (c : Char) : Bool := c = ' ' || c = '\t' || c = '\n' || c = '\r'

/-- Skip leading JSON whitespace. -/
def skipWs : List Char → List Char
  | [] => []
  | c :: rest => if wsChar c then skipWs rest else c :: rest

/-- Expect a literal keyword tail (`rue`, `alse`, `ull`). -/
def expectLit : List Char → List Char → Option (List Char)
  | [], l => some l
  | e :: es, c :: rest => if c = e then expectLit es rest else none
  | _ :: _, [] => none

/-- ASCII digit test. -/
def isDig (c : Char) : Bool := 48 ≤ c.toNat && c.toNat ≤ 57

/-- Parse a run of digits into an accumulator (the integer-literal case of
the JSON number grammar; see module comment). -/
def parseDigits (acc : Nat) : List Char → (Nat × List Char)
  | [] => (acc, [])
  | c :: rest =>
    if isDig c then parseDigits (acc * 10 + (c.toNat - 48)) rest
    else (acc, c :: rest)

/-- Parse an integer JSON number (optional minus sign, then digits). -/
def parseNum : List Char → Option (JVal × List Char)
  | [] => none
  | c :: rest =>
    if c = '-' then
      match rest with
      | d :: r2 =>
        if isDig d then
          let p := parseDigits (d.toNat - 48) r2
          some (jnum (-(p.1 : Int)), p.2)
        else none
      | [] => none
    else if isDig c then
      let p := parseDigits (c.toNat - 48) rest
      some (jnum (p.1 : Int), p.2)
    else none

mutual

/-- Parse one JSON value.  `fuel` bounds the recursion depth and the number of
container members; `parseJson` supplies more fuel than any input can use. -/
def parseValue : Nat → List Char → Option (JVal × List Char)
  | 0, _ => none
  | _ + 1, [] => none
  | f + 1, c :: rest =>
    if c = '{' then parseObjStart f (skipWs rest)
    else if c = '[' then parseArrStart f (skipWs rest)
    else if c = '"' then
      (parseStringBody rest).map (fun p => (jstr p.1, p.2))
    else if c = 't' then
      (expectLit (strL "rue") rest).map (fun r => (jbool true, r))
    else if c = 'f' then
      (expectLit (strL "alse") rest).map (fun r => (jbool false, r))
    else if c = 'n' then
      (expectLit (strL "ull") rest).map (fun r => (jnull, r))
    else parseNum (c :: rest)

/-- Parse the inside of an object, right after `{` and whitespace. -/
def parseObjStart : Nat → List Char → Option (JVal × List Char)
  | 0, _ => none
  | _ + 1, [] => none
  | f + 1, c :: rest =>
    if c = '}' then some (jobj [], rest)
    else parseMembers f [] (c :: rest)

/-- Parse the members of a non-empty object (input starts at a key). -/
def parseMembers : Nat → List (List Char × JVal) → List Char →
    Option (JVal × List Char)
  | 0, _, _ => none
  | _ + 1, _, [] => none
  | f + 1, acc, c :: rest =>
    if c = '"' then
      match parseStringBody rest with
      | some (k, r1) =>
        match skipWs r1 with
        | c2 :: r2 =>
          if c2 = ':' then
            match parseValue f (skipWs r2) with
            | some (v, r3) =>
              match skipWs r3 with
              | c3 :: r4 =>
                if c3 = ',' then parseMembers f (objInsert acc k v) (skipWs r4)
                else if c3 = '}' then some (jobj (objInsert acc k v), r4)
                else none
              | [] => none
            | none => none
          else none
        | [] => none
      | none => none
    else none

/-- Parse the inside of an array, right after `[` and whitespace. -/
def parseArrStart : Nat → List Char → Option (JVal × List Char)
  | 0, _ => none
  | _ + 1, [] => none
  | f + 1, c :: rest =>
    if c = ']' then some (jarr [], rest)
    else parseElems f [] (c :: rest)

/-- Parse the elements of a non-empty array (input starts at a value). -/
def parseElems : Nat → List JVal → List Char → Option (JVal × List Char)
  | 0, _, _ => none
  | f + 1, acc, l =>
    match parseValue f l with
    | some (v, r1) =>
      match skipWs r1 with
      | c2 :: r2 =>
        if c2 = ',' then parseElems f (acc ++ [v]) (skipWs r2)
        else if c2 = ']' then some (jarr (acc ++ [v]), r2)
        else none
      | [] => none
    | none => none

end

/-- Model of `json.loads` on the JSON fragment used by the program (see
module comment): skip surrounding whitespace, parse exactly one value,
reject trailing garbage. -/
def parseJson (s : List Char) : Option JVal :=
  match parseValue (s.length + 1) (skipWs s) with
  | some (v, rest) => if skipWs rest = [] then some v else none
  | none => none

/-! ## JSON serialization (`json.dumps(-, indent := 2)`) -/

/-- The newline-plus-indentation separator `json.dumps` emits before an item
at nesting level `lvl` when `indent=2`. -/
def nlInd (lvl : Nat) : List Char := '\n' :: List.replicate (2 * lvl) ' '

mutual

/-- Model of `json.dumps(v, indent := 2)` at nesting level `lvl`. -/
def dumpsV : Nat → JVal → List Char
  | _, jnull => strL "null"
  | _, jbool true => strL "true"
  | _, jbool false => strL "false"
  | _, jnum n => intChars n
  | _, jstr s => '"' :: escape s ++ ['"']
  | _, jarr [] => strL "[]"
  | lvl, jarr (x :: xs) =>
    '[' :: nlInd (lvl + 1) ++ dumpsV (lvl + 1) x ++ dumpsArr (lvl + 1) xs ++
      nlInd lvl ++ [']']
  | _, jobj [] => strL "\x7b\x7d"
  | lvl, jobj (m :: ms) =>
    '\x7b' :: nlInd (lvl + 1) ++ dumpsKV (lvl + 1) m ++ dumpsObj (lvl + 1) ms ++
      nlInd lvl ++ ['\x7d']

/-- Remaining elements of a non-empty array: `,`, newline indent, value. -/
def dumpsArr : Nat → List JVal → List Char
  | _, [] => []
  | lvl, x :: xs => ',' :: nlInd lvl ++ dumpsV lvl x ++ dumpsArr lvl xs

/-- Remaining members of a non-empty object. -/
def dumpsObj : Nat → List (List Char × JVal) → List Char
  | _, [] => []
  | lvl, m :: ms => ',' :: nlInd lvl ++ dumpsKV lvl m ++ dumpsObj lvl ms

/-- One `"key": value` member. -/
def dumpsKV : Nat → List Char × JVal → List Char
  | lvl, (k, v) => '"' :: escape k ++ '"' :: ':' :: ' ' :: dumpsV lvl v

end

/-- Model of `json.dumps(v, indent := 2)`. -/
def dumps (v : JVal) : List Char := dumpsV 0 v

/-! ## Data model and transport oracles

A `Message` carries the fields the program reads: `ts` (Slack's numeric
epoch-seconds timestamp; always well-formed in Slack responses, so modelled
as an integer) and `text` (`msg.get('text', '')`, so a missing text field is
modelled as the empty string). -/

/-- One Slack message, with the two fields the program reads. -/
structure Message where
  ts : Int
  text : List Char
deriving DecidableEq, Repr

/-- One page of a `conversations_history` response: the message list, the
`has_more` flag and the continuation cursor (`response_metadata.next_cursor`,
not otherwise interpreted by the model). -/
structure Page where
  messages : List Message
  has_more : Bool
  next_cursor : List Char
deriving DecidableEq, Repr

/-- A `SlackApiError`, carrying `e.response['error']`. -/
structure SlackError where
  error : List Char
deriving DecidableEq, Repr

/-- Outcome of one Slack API call: a page, or a raised `SlackApiError`. -/
abbrev PageResult := Except SlackError Page

/-- The pagination loop of `fetch_messages`, already holding the messages of
the current page: while `has_more` is set, issue the next call and accumulate
its messages.  `rs` is the oracle sequence of responses to successive calls
(the model of the Slack client); an exhausted oracle ends the loop. -/
def fetchWhile (acc : List Message) (hasMore : Bool) : List PageResult → List Message
  | [] => acc
  | r :: rest =>
    if hasMore then
      match r with
      | .error _ => []
      | .ok p => fetchWhile (acc ++ p.messages) p.has_more rest
    else acc

/-- `SlackerBot.fetch_messages`: first `conversations_history` call, then the
pagination loop; a `SlackApiError` anywhere makes the whole function return
`[]` (the `except` clause wraps the entire body). -/
def fetch_messages (responses : List PageResult) : List Message :=
  match responses with
  | [] => []
  | .error _ :: _ => []
  | .ok page :: rest => fetchWhile page.messages page.has_more rest

/-! ## Digest generator -/

/-- The canned sentinel returned for an empty message collection. -/
def noMessagesSentinel : List Char :=
  strL "No messages found in the specified timeframe."

/-- Result of `generate_summary`: the canned sentinel string, a JSON value
(parsed or fallback dict), or `None` after a service-call failure. -/
inductive GenResult where
  | sent : List Char → GenResult
  | data : JVal → GenResult
  | fail : GenResult
deriving DecidableEq

/-- Python `str.find` for a single character: index of the first occurrence
(`-1`, modelled as `none`, when absent). -/
def findIdx : Char → List Char → Option Nat
  | _, [] => none
  | c, x :: xs => if x = c then some 0 else (findIdx c xs).map (· + 1)

/-- Python `str.rfind` for a single character: index of the last occurrence. -/
def rfindIdx : Char → List Char → Option Nat
  | _, [] => none
  | c, x :: xs =>
    match rfindIdx c xs with
    | some i => some (i + 1)
    | none => if x = c then some 0 else none

/-- The synthetic fallback digest: `summary` is the whole raw response text,
the two lists are empty. -/
def fallbackDigest (response_text : List Char) : JVal :=
  jobj [(strL "summary", jstr response_text),
        (strL "action_items", jarr []),
        (strL "decisions", jarr [])]

/-- The response-extraction algorithm of `generate_summary` (lines 102-126):
find the first `\x7b` and the last `\x7d`, parse the inclusive slice as JSON;
on a missing brace or a parse failure, fall back to `fallbackDigest`. -/
def extract_response (response_text : List Char) : JVal :=
  match findIdx '\x7b' response_text, rfindIdx '\x7d' response_text with
  | some start_idx, some last_idx =>
    let json_str := (response_text.drop start_idx).take (last_idx + 1 - start_idx)
    match parseJson json_str with
    | some summary_data => summary_data
    | none => fallbackDigest response_text
  | _, _ => fallbackDigest response_text

/-- One transcript line, `f"\x7btimestamp\x7d: \x7btext\x7d"`.  The rendered
`datetime.fromtimestamp` timestamp is modelled as the decimal epoch-seconds
value; no claim depends on the rendered form of the timestamp. -/
def messageLine (m : Message) : List Char :=
  intChars m.ts ++ strL ": " ++ m.text

/-- The external calls the pipeline can make, recorded as a trace. -/
inductive Call where
  | serviceCall : Call
  | writeCall : Call
  | postCall : Call
deriving DecidableEq, Repr

/-- Outcome of the Anthropic `messages.create` call: the response text
(`response.content[0].text`), or a raised exception. -/
abbrev ServiceResult := Except Unit (List Char)

/-- `SlackerBot.generate_summary`, with the Anthropic client modelled by the
`svc` oracle.  Returns the result and the trace of service calls made: an
empty message collection short-circuits to the sentinel without touching the
service; a service exception yields `fail` (Python `None`); otherwise the
response text goes through `extract_response`. -/
def generate_summary (messages : List Message) (svc : ServiceResult) :
    GenResult × List Call :=
  if messages.isEmpty then (GenResult.sent noMessagesSentinel, [])
  else
    match svc with
    | .error _ => (GenResult.fail, [Call.serviceCall])
    | .ok response_text => (GenResult.data (extract_response response_text), [Call.serviceCall])

/-! ## Artifact writer -/

/-- The JSON value `json.dumps` receives in `save_to_file`: the summary may
be the sentinel string or a dict. -/
def summaryToJVal : GenResult → JVal
  | GenResult.sent s => jstr s
  | GenResult.data v => v
  | GenResult.fail => jnull

/-- The artifact file content before the summary header: the transcript
section written by `save_to_file`. -/
def filePre (messages : List Message) : List Char :=
  strL "=== Original Messages ===\n\n" ++
    messages.flatMap (fun m => messageLine m ++ ['\n'])

/-- The summary-section header the writer emits between the transcript and
the JSON rendering of the digest. -/
def summaryMarker : List Char := strL "\n=== Summary ===\n\n"

/-- The full artifact file content `save_to_file` writes on success. -/
def fileContent (messages : List Message) (summary : GenResult) : List Char :=
  filePre messages ++ summaryMarker ++ dumps (summaryToJVal summary)

/-- `SlackerBot.save_to_file`: on success the file holds `fileContent`; any
exception is caught and reported as `False` (modelled by the `writeOk`
oracle).  Returns `some` written content on success, `none` on failure. -/
def save_to_file (messages : List Message) (summary : GenResult)
    (writeOk : Bool) : Option (List Char) :=
  if writeOk then some (fileContent messages summary) else none

/-- Boolean prefix test (`p` begins `s`). -/
def leads : List Char → List Char → Bool
  | [], _ => true
  | _ :: _, [] => false
  | p :: ps, c :: cs => p = c && leads ps cs

/-- The suffix of `s` after the first occurrence of `marker` (a reader
locating the JSON section of the artifact file). -/
def afterFirst (marker : List Char) : List Char → Option (List Char)
  | [] => none
  | c :: rest =>
    if leads marker (c :: rest) then some ((c :: rest).drop marker.length)
    else afterFirst marker rest

/-- Re-read the artifact file: take the text after the first summary-section
header and parse it as JSON. -/
def readSummaryJson (content : List Char) : Option JVal :=
  (afterFirst summaryMarker content).bind parseJson

/-! ## Publisher -/

/-- The wall-clock values `datetime.strftime('%B %d, %Y %H:%M')` reads. -/
structure DT where
  year : Nat
  month : Nat
  day : Nat
  hour : Nat
  minute : Nat
deriving DecidableEq, Repr

/-- `%B`: full month name. -/
def monthName (m : Nat) : List Char :=
  ([strL "January", strL "February", strL "March", strL "April", strL "May",
    strL "June", strL "July", strL "August", strL "September", strL "October",
    strL "November", strL "December"]).getD (m - 1) []

/-- Zero-padded two-digit field (`%d`, `%H`, `%M`). -/
def pad2 (n : Nat) : List Char :=
  if n < 10 then '0' :: natChars n else natChars n

/-- `t.strftime('%B %d, %Y %H:%M')` (years of fewer than four digits, which
`%Y` would zero-pad, do not occur). -/
def strftimeBdYHM (t : DT) : List Char :=
  monthName t.month ++ [' '] ++ pad2 t.day ++ strL ", " ++ natChars t.year ++
    [' '] ++ pad2 t.hour ++ [':'] ++ pad2 t.minute

/-- A Slack Block-Kit block as built by `format_slack_message`: a plain-text
header, a divider, or an `mrkdwn` section (the constructor holds the text of
the nested `text` object). -/
inductive Block where
  | header : List Char → Block
  | divider : Block
  | section : List Char → Block
deriving DecidableEq, Repr

/-- A Python exception escaping the pipeline. -/
inductive PyErr where
  | typeError : PyErr
  | keyError : PyErr
deriving DecidableEq, Repr

mutual

/-- Python `str()` of a JSON value, as interpolated by `f"• \x7bitem\x7d"`:
strings verbatim, `repr` for everything else. -/
def pyStr : JVal → List Char
  | jstr s => s
  | v => pyRepr v

/-- Python `repr()` of a JSON value.  String `repr` is modelled as plain
single-quoting (no claim exercises `repr` on strings needing escapes). -/
def pyRepr : JVal → List Char
  | jnull => strL "None"
  | jbool true => strL "True"
  | jbool false => strL "False"
  | jnum n => intChars n
  | jstr s => Char.ofNat 39 :: s ++ [Char.ofNat 39]
  | jarr [] => strL "[]"
  | jarr (x :: xs) => '[' :: pyRepr x ++ pyReprArr xs ++ [']']
  | jobj [] => strL "\x7b\x7d"
  | jobj (m :: ms) => '\x7b' :: pyReprKV m ++ pyReprObj ms ++ ['\x7d']

/-- Remaining elements of a list `repr`. -/
def pyReprArr : List JVal → List Char
  | [] => []
  | x :: xs => strL ", " ++ pyRepr x ++ pyReprArr xs

/-- Remaining members of a dict `repr`. -/
def pyReprObj : List (List Char × JVal) → List Char
  | [] => []
  | m :: ms => strL ", " ++ pyReprKV m ++ pyReprObj ms

/-- One `'key': value` member of a dict `repr`. -/
def pyReprKV : List Char × JVal → List Char
  | (k, v) => Char.ofNat 39 :: k ++ Char.ofNat 39 :: ':' :: ' ' :: pyRepr v

end

/-- Python `for item in v`: the sequence iterated over, or `none` for a
`TypeError` (non-iterable value).  Strings iterate as one-character strings,
dicts as their keys. -/
def pyIter : JVal → Option (List JVal)
  | jarr l => some l
  | jstr s => some (s.map (fun c => jstr [c]))
  | jobj l => some (l.map (fun p => jstr p.1))
  | _ => none

/-- Python `sep.join(l)`. -/
def joinSep (sep : List Char) : List (List Char) → List Char
  | [] => []
  | [x] => x
  | x :: y :: rest => x ++ sep ++ joinSep sep (y :: rest)

/-- Subscripting the summary with a string key, `summary_data["k"]`: only a
dict supports it (`KeyError` on a missing key, `TypeError` otherwise — a
string, list, number, bool or `None` cannot be subscripted by a string). -/
def pySubscript (summary_data : GenResult) (k : List Char) : Except PyErr JVal :=
  match summary_data with
  | GenResult.data (jobj l) =>
    match objLookup k l with
    | some v => .ok v
    | none => .error PyErr.keyError
  | _ => .error PyErr.typeError

/-- The bulleted rendering of one extracted list: Python
`"\n".join([f"• \x7bitem\x7d" for item in v])` guarded by `if v:`; produces no
section when `v` is falsy, and a `TypeError` when a truthy `v` is not
iterable. -/
def bulletSection (title : List Char) (v : JVal) : Except PyErr (List Block) :=
  if pyTruthy v then
    match pyIter v with
    | some items =>
      .ok [Block.section
        (title ++ joinSep ['\n'] (items.map (fun it => strL "• " ++ pyStr it)))]
    | none => .error PyErr.typeError
  else .ok []

/-- `SlackerBot.format_slack_message`: header with the human-readable time
range, divider, summary section, then the two optional bulleted sections.
The function has no `try`/`except`, so subscript and concatenation errors
propagate (hence the `Except`). -/
def format_slack_message (summary_data : GenResult) (start_time end_time : DT) :
    Except PyErr (List Block) :=
  let time_range := strftimeBdYHM start_time ++ strL " to " ++ strftimeBdYHM end_time
  match pySubscript summary_data (strL "summary") with
  | .error e => .error e
  | .ok sv =>
    match sv with
    | jstr s =>
      match pySubscript summary_data (strL "action_items") with
      | .error e => .error e
      | .ok av =>
        match pySubscript summary_data (strL "decisions") with
        | .error e => .error e
        | .ok dv =>
          match bulletSection (strL "*Action Items:*\n") av with
          | .error e => .error e
          | .ok ablocks =>
            match bulletSection (strL "*Key Decisions:*\n") dv with
            | .error e => .error e
            | .ok dblocks =>
              .ok ([Block.header (strL "📋 Slack Digest: " ++ time_range),
                    Block.divider,
                    Block.section (strL "*Summary:*\n" ++ s)] ++
                   ablocks ++ dblocks)
    | _ => .error PyErr.typeError

/-- `SlackerBot.post_to_slack`: posts the blocks; a `SlackApiError` is caught
and reported as `False`.  The outcome of the `chat_postMessage` call is the
`postRes` oracle. -/
def post_to_slack (blocks : List Block) (postRes : Except SlackError Unit) : Bool :=
  match postRes with
  | .ok _ => true
  | .error _ => false

/-! ## Orchestrator -/

/-- The oracle outcomes of all external effects in one run. -/
structure Env where
  pages : List PageResult
  svc : ServiceResult
  writeOk : Bool
  postRes : Except SlackError Unit

/-- Python truthiness of the generator's result (`if summary:`). -/
def truthy : GenResult → Bool
  | GenResult.sent s => !s.isEmpty
  | GenResult.data v => pyTruthy v
  | GenResult.fail => false

/-- `SlackerBot.process_channel`: fetch, summarize, save, optionally format
and post; returns the aggregate boolean (or the escaped exception) together
with the trace of service/write/post calls performed.  `postFlag` is the
`post_to_slack=False` keyword parameter. -/
def process_channel (env : Env) (start_time end_time : DT) (postFlag : Bool) :
    Except PyErr Bool × List Call :=
  let messages := fetch_messages env.pages
  let g := generate_summary messages env.svc
  let summary := g.1
  if truthy summary then
    let file_success := (save_to_file messages summary env.writeOk).isSome
    let tr := g.2 ++ [Call.writeCall]
    if postFlag then
      match format_slack_message summary start_time end_time with
      | .error e => (.error e, tr)
      | .ok blocks =>
        (.ok (file_success && post_to_slack blocks env.postRes), tr ++ [Call.postCall])
    else (.ok (file_success && true), tr)
  else (.ok false, g.2)

/-- The generator result a run of `process_channel` computes internally. -/
def genOf (env : Env) : GenResult :=
  (generate_summary (fetch_messages env.pages) env.svc).1

/-- Whether an `Except` result is a normal return. -/
def exOk : Except PyErr (List Block) → Bool
  | .ok _ => true
  | .error _ => false

/-- A structured digest as described by the prompt: a summary string and two
ordered string lists. -/
structure Digest where
  summary : List Char
  action_items : List (List Char)
  decisions : List (List Char)
deriving DecidableEq, Repr

/-- The JSON object carrying a digest. -/
def digestToJVal (d : Digest) : JVal :=
  jobj [(strL "summary", jstr d.summary),
        (strL "action_items", jarr (d.action_items.map jstr)),
        (strL "decisions", jarr (d.decisions.map jstr))]

/-- Whether the `chat_postMessage` call of a run would succeed. -/
def postSucceeds (env : Env) : Bool :=
  match env.postRes with
  | .ok _ => true
  | .error _ => false

instance {ε α : Type} [DecidableEq ε] [DecidableEq α] :
    DecidableEq (Except ε α) := fun a b =>
  match a, b with
  | .ok x, .ok y =>
    if h : x = y then isTrue (by rw [h]) else isFalse (by simp [h])
  | .error x, .error y =>
    if h : x = y then isTrue (by rw [h]) else isFalse (by simp [h])
  | .ok _, .error _ => isFalse (by simp)
  | .error _, .ok _ => isFalse (by simp)

/-- The code units one character contributes to the decoded body: itself, or
a surrogate pair for astral characters. -/
def unitChar (c : Char) : List Nat :=
  if c.toNat < 0x10000 then [c.toNat]
  else [0xd800 + (c.toNat - 0x10000) / 0x400, 0xdc00 + (c.toNat - 0x10000) % 0x400]

/-- The code units of a whole string. -/
def unitsOf (s : List Char) : List Nat := s.flatMap unitChar

/-! ## Lemmas about the fetcher -/

theorem fetchWhile_false (acc : List Message) (rs : List PageResult) :
    fetchWhile acc false rs = acc := by
  cases rs <;> simp [fetchWhile]

theorem fetchWhile_ok_run (ps : List Page) (plast : Page) (extra : List PageResult)
    (acc : List Message) (h1 : ∀ p ∈ ps, p.has_more = true)
    (h2 : plast.has_more = false) :
    fetchWhile acc true ((ps ++ [plast]).map Except.ok ++ extra) =
      acc ++ ps.flatMap Page.messages ++ plast.messages := by
  induction ps generalizing acc with
  | nil =>
    simp [fetchWhile, h2, fetchWhile_false]
  | cons p ps ih =>
    have hp : p.has_more = true := h1 p (by simp)
    have ih' := ih (acc ++ p.messages) (fun q hq => h1 q (by simp [hq]))
    simp only [List.map_append, List.map_cons, List.map_nil, List.append_assoc,
      List.cons_append, List.nil_append] at ih' ⊢
    simp [fetchWhile, hp, ih', List.flatMap_cons, List.append_assoc]

theorem fetchWhile_err_run (ps : List Page) (e : SlackError) (rest : List PageResult)
    (acc : List Message) (h1 : ∀ p ∈ ps, p.has_more = true) :
    fetchWhile acc true (ps.map Except.ok ++ Except.error e :: rest) = [] := by
  induction ps generalizing acc with
  | nil => simp [fetchWhile]
  | cons p ps ih =>
    have hp : p.has_more = true := h1 p (by simp)
    have ih' := ih (acc ++ p.messages) (fun q hq => h1 q (by simp [hq]))
    simp [fetchWhile, hp, ih']

/-- C4: for every sequence of page responses whose last page (and only it)
clears the more-pages flag, `fetch_messages` returns exactly the
concatenation of all pages' message lists in order — no duplicates, no drops
— and the loop stops there: responses beyond the first page with a cleared
flag (`extra`) are never consumed. -/
theorem claim_C4_fetch_concatenation (ps : List Page) (plast : Page)
    (extra : List PageResult)
    (h1 : ∀ p ∈ ps, p.has_more = true) (h2 : plast.has_more = false) :
    fetch_messages ((ps ++ [plast]).map Except.ok ++ extra) =
      (ps ++ [plast]).flatMap Page.messages := by
  cases ps with
  | nil =>
    simp [fetch_messages, h2, fetchWhile_false]
  | cons p ps' =>
    have hp : p.has_more = true := h1 p (by simp)
    have hrun := fetchWhile_ok_run ps' plast extra p.messages
      (fun q hq => h1 q (by simp [hq])) h2
    simp only [List.map_append, List.map_cons, List.map_nil, List.append_assoc,
      List.cons_append, List.nil_append] at hrun ⊢
    simp [fetch_messages, hp, hrun, List.flatMap_cons, List.append_assoc]

/-- C4 witness: two pages of one message each, concatenated in order. -/
theorem claim_C4_witness :
    fetch_messages [Except.ok ⟨[⟨1, strL "a"⟩], true, strL "c1"⟩,
                    Except.ok ⟨[⟨2, strL "b"⟩], false, []⟩] =
      [⟨1, strL "a"⟩, ⟨2, strL "b"⟩] := by
  have h := claim_C4_fetch_concatenation [⟨[⟨1, strL "a"⟩], true, strL "c1"⟩]
    ⟨[⟨2, strL "b"⟩], false, []⟩ [] (by decide) (by decide)
  simpa using h

/-- C5: on an empty message collection, `generate_summary` returns the canned
"no messages" sentinel string (a value distinct from any digest), for every
possible service outcome, and its call trace is empty — the generation
service is never invoked. -/
theorem claim_C5_empty_sentinel (svc : ServiceResult) :
    generate_summary [] svc = (GenResult.sent noMessagesSentinel, []) := by
  simp [generate_summary]

/-- C7: a `SlackApiError` at any page of the pagination — after any number of
successfully fetched pages — makes `fetch_messages` return the empty
collection, discarding the pages already accumulated. -/
theorem claim_C7_fetch_error_empty (ps : List Page) (e : SlackError)
    (rest : List PageResult) (h1 : ∀ p ∈ ps, p.has_more = true) :
    fetch_messages (ps.map Except.ok ++ Except.error e :: rest) = [] := by
  cases ps with
  | nil => simp [fetch_messages]
  | cons p ps' =>
    have hp : p.has_more = true := h1 p (by simp)
    have hrun := fetchWhile_err_run ps' e rest p.messages
      (fun q hq => h1 q (by simp [hq]))
    simp [fetch_messages, hp, hrun]

/-- C7 witness: one good page, then a transport error — the accumulated page
is discarded. -/
theorem claim_C7_witness :
    fetch_messages [Except.ok ⟨[⟨1, strL "a"⟩], true, strL "c1"⟩,
                    Except.error ⟨strL "ratelimited"⟩] = [] := by
  have h := claim_C7_fetch_error_empty [⟨[⟨1, strL "a"⟩], true, strL "c1"⟩]
    ⟨strL "ratelimited"⟩ [] (by decide)
  simpa using h

/-! ## Lemmas about `find` / `rfind` -/

theorem findIdx_eq_none {c : Char} {l : List Char} (h : c ∉ l) :
    findIdx c l = none := by
  induction l with
  | nil => rfl
  | cons x xs ih =>
    have hx : x ≠ c := by rintro rfl; exact h (by simp)
    simp [findIdx, hx, ih (fun hm => h (by simp [hm]))]

theorem findIdx_append_cons (c : Char) (pre rest : List Char) (h : c ∉ pre) :
    findIdx c (pre ++ c :: rest) = some pre.length := by
  induction pre with
  | nil => simp [findIdx]
  | cons x xs ih =>
    have hx : x ≠ c := by rintro rfl; exact h (by simp)
    simp [findIdx, hx, ih (fun hm => h (by simp [hm]))]

theorem rfindIdx_eq_none {c : Char} {l : List Char} (h : c ∉ l) :
    rfindIdx c l = none := by
  induction l with
  | nil => rfl
  | cons x xs ih =>
    have hx : x ≠ c := by rintro rfl; exact h (by simp)
    simp [rfindIdx, hx, ih (fun hm => h (by simp [hm]))]

theorem rfindIdx_append_cons (c : Char) (init post : List Char) (h : c ∉ post) :
    rfindIdx c (init ++ c :: post) = some init.length := by
  induction init with
  | nil => simp [rfindIdx, rfindIdx_eq_none h]
  | cons x xs ih => simp [rfindIdx, ih]

/-- C6: the extractor falls back to the synthetic digest — `summary` equal to
the whole raw response text, `action_items` and `decisions` empty — both when
the text has no `\x7b` at all and when the selected first-`\x7b`-to-last-`\x7d`
slice fails to parse as JSON. -/
theorem claim_C6_extractor_fallback :
    (∀ text : List Char, '\x7b' ∉ text →
      extract_response text = fallbackDigest text) ∧
    (∀ (text : List Char) (s e : Nat), findIdx '\x7b' text = some s →
      rfindIdx '\x7d' text = some e →
      parseJson ((text.drop s).take (e + 1 - s)) = none →
      extract_response text = fallbackDigest text) := by
  constructor
  · intro text h
    simp [extract_response, findIdx_eq_none h]
  · intro text s e hf hr hp
    simp [extract_response, hf, hr, hp]

/-- C6 witness: a braceless text, and a text whose selected slice `\x7bax\x7d`
is not valid JSON. -/
theorem claim_C6_witness :
    extract_response (strL "hello") = fallbackDigest (strL "hello") ∧
    extract_response (strL "\x7bax\x7d") = fallbackDigest (strL "\x7bax\x7d") :=
  ⟨claim_C6_extractor_fallback.1 (strL "hello") (by decide),
   claim_C6_extractor_fallback.2 (strL "\x7bax\x7d") 0 3 (by decide) (by decide)
     (by decide)⟩

/-- C1 counterexample: the model output
`a\x7b \x7b"summary": "s", "action_items": [], "decisions": []\x7d` contains
exactly one well-formed JSON object (the digest with summary `"s"`) wrapped
in prose, but the prose before it contains a stray `\x7b`, so the
first-`\x7b`-to-last-`\x7d` slice is not valid JSON and the extractor returns
the fallback digest (whose `summary` is the whole text) instead of the parsed
fields, refuting the claim as stated. -/
theorem claim_C1_counterexample :
    parseJson
        (strL "\x7b\"summary\": \"s\", \"action_items\": [], \"decisions\": []\x7d") =
      some (jobj [(strL "summary", jstr (strL "s")),
                  (strL "action_items", jarr []),
                  (strL "decisions", jarr [])]) ∧
    strL "a\x7b " ++
        strL "\x7b\"summary\": \"s\", \"action_items\": [], \"decisions\": []\x7d" =
      strL "a\x7b \x7b\"summary\": \"s\", \"action_items\": [], \"decisions\": []\x7d" ∧
    extract_response
        (strL "a\x7b \x7b\"summary\": \"s\", \"action_items\": [], \"decisions\": []\x7d") =
      fallbackDigest
        (strL "a\x7b \x7b\"summary\": \"s\", \"action_items\": [], \"decisions\": []\x7d") ∧
    extract_response
        (strL "a\x7b \x7b\"summary\": \"s\", \"action_items\": [], \"decisions\": []\x7d") ≠
      jobj [(strL "summary", jstr (strL "s")),
            (strL "action_items", jarr []),
            (strL "decisions", jarr [])] := by
  refine ⟨by decide, by decide, by decide, by decide⟩

/-- C1 (amended): for every model output of the form
`pre ++ J ++ post` where `J` is a well-formed JSON object literally starting
with `\x7b` and ending with `\x7d`, the prose before it contains no `\x7b`,
and the prose after it contains no `\x7d`, the extractor slices out exactly
`J` and returns its parsed fields.  (The stray-brace restriction on the
surrounding prose is what the counterexample forces.) -/
theorem claim_C1_extractor_wrapped_json (pre mid post : List Char) (v : JVal)
    (hpre : '\x7b' ∉ pre) (hpost : '\x7d' ∉ post)
    (hparse : parseJson ('\x7b' :: mid ++ ['\x7d']) = some v) :
    extract_response (pre ++ ('\x7b' :: mid ++ ['\x7d']) ++ post) = v := by
  have hshape1 : pre ++ ('\x7b' :: mid ++ ['\x7d']) ++ post =
      pre ++ '\x7b' :: (mid ++ '\x7d' :: post) := by simp
  have hshape2 : pre ++ ('\x7b' :: mid ++ ['\x7d']) ++ post =
      (pre ++ '\x7b' :: mid) ++ '\x7d' :: post := by simp
  have hf : findIdx '\x7b' (pre ++ ('\x7b' :: mid ++ ['\x7d']) ++ post) =
      some pre.length := by
    rw [hshape1]; exact findIdx_append_cons _ _ _ hpre
  have hr : rfindIdx '\x7d' (pre ++ ('\x7b' :: mid ++ ['\x7d']) ++ post) =
      some (pre.length + mid.length + 1) := by
    rw [hshape2]
    have := rfindIdx_append_cons '\x7d' (pre ++ '\x7b' :: mid) post hpost
    simpa [Nat.add_comm, Nat.add_assoc, Nat.add_left_comm] using this
  have hdrop : ((pre ++ ('\x7b' :: mid ++ ['\x7d']) ++ post).drop pre.length) =
      ('\x7b' :: mid ++ ['\x7d']) ++ post := by
    rw [List.append_assoc, List.drop_left]
  have hlen : pre.length + mid.length + 1 + 1 - pre.length =
      ('\x7b' :: mid ++ ['\x7d']).length := by
    simp; omega
  have htake : (((pre ++ ('\x7b' :: mid ++ ['\x7d']) ++ post).drop pre.length).take
      (pre.length + mid.length + 1 + 1 - pre.length)) =
      ('\x7b' :: mid ++ ['\x7d']) := by
    rw [hdrop, hlen, List.take_left]
  simp only [extract_response, hf, hr, htake, hparse]

/-- C1 witness: the scenario from the spec — a digest JSON wrapped in
brace-free prose is extracted field-for-field. -/
theorem claim_C1_witness :
    extract_response
        (strL "Sure! " ++
          ('\x7b' ::
            strL "\"summary\":\"Team aligned on X\",\"action_items\":[\"Alice: ship Y\"],\"decisions\":[\"Adopt Z\"]" ++
            ['\x7d']) ++
          strL " Hope this helps!") =
      jobj [(strL "summary", jstr (strL "Team aligned on X")),
            (strL "action_items", jarr [jstr (strL "Alice: ship Y")]),
            (strL "decisions", jarr [jstr (strL "Adopt Z")])] :=
  claim_C1_extractor_wrapped_json (strL "Sure! ")
    (strL "\"summary\":\"Team aligned on X\",\"action_items\":[\"Alice: ship Y\"],\"decisions\":[\"Adopt Z\"]")
    (strL " Hope this helps!") _ (by decide) (by decide) (by decide)

/-! ## Digests and the publisher's block sequence -/

theorem pySubscript_digest_summary (d : Digest) :
    pySubscript (GenResult.data (digestToJVal d)) (strL "summary") =
      .ok (jstr d.summary) := by
  simp [pySubscript, digestToJVal, objLookup]

theorem pySubscript_digest_actions (d : Digest) :
    pySubscript (GenResult.data (digestToJVal d)) (strL "action_items") =
      .ok (jarr (d.action_items.map jstr)) := by
  have h1 : strL "summary" ≠ strL "action_items" := by decide
  simp [pySubscript, digestToJVal, objLookup, h1]

theorem pySubscript_digest_decisions (d : Digest) :
    pySubscript (GenResult.data (digestToJVal d)) (strL "decisions") =
      .ok (jarr (d.decisions.map jstr)) := by
  have h1 : strL "summary" ≠ strL "decisions" := by decide
  have h2 : strL "action_items" ≠ strL "decisions" := by decide
  simp [pySubscript, digestToJVal, objLookup, h1, h2]

theorem pyStr_jstr (s : List Char) : pyStr (jstr s) = s := by
  simp [pyStr]

theorem bulletSection_strings (title : List Char) (l : List (List Char)) :
    bulletSection title (jarr (l.map jstr)) =
      .ok (if l = [] then []
           else [Block.section (title ++
             joinSep ['\n'] (l.map (fun it => strL "• " ++ it)))]) := by
  cases l with
  | nil => simp [bulletSection, pyTruthy]
  | cons x xs =>
    have hmap : List.map ((fun it => strL "• " ++ pyStr it) ∘ jstr) xs =
        List.map (fun it => strL "• " ++ it) xs := by
      apply List.map_congr_left
      intro a _
      simp [pyStr_jstr]
    simp [bulletSection, pyTruthy, pyIter, pyStr_jstr, Function.comp, hmap]

/-- C8: for every digest and time window, `format_slack_message` produces the
header block carrying the human-readable time range, then a divider, then the
summary section; an action-items section appears iff `action_items` is
non-empty and a decisions section iff `decisions` is non-empty, each list
rendered as `• `-bulleted lines joined by newlines.  In particular, a digest
with empty `action_items` and non-empty `decisions` yields no action-items
section but a decisions section. -/
theorem claim_C8_block_sequence (d : Digest) (start_time end_time : DT) :
    format_slack_message (GenResult.data (digestToJVal d)) start_time end_time =
      .ok ([Block.header (strL "📋 Slack Digest: " ++
              (strftimeBdYHM start_time ++ strL " to " ++ strftimeBdYHM end_time)),
            Block.divider,
            Block.section (strL "*Summary:*\n" ++ d.summary)] ++
           (if d.action_items = [] then []
            else [Block.section (strL "*Action Items:*\n" ++
              joinSep ['\n'] (d.action_items.map (fun it => strL "• " ++ it)))]) ++
           (if d.decisions = [] then []
            else [Block.section (strL "*Key Decisions:*\n" ++
              joinSep ['\n'] (d.decisions.map (fun it => strL "• " ++ it)))])) := by
  simp only [format_slack_message, pySubscript_digest_summary,
    pySubscript_digest_actions, pySubscript_digest_decisions,
    bulletSection_strings]

/-! ## Lemmas about the orchestrator -/

theorem post_to_slack_eq (blocks : List Block) (env : Env) :
    post_to_slack blocks env.postRes = postSucceeds env := by
  cases h : env.postRes <;> simp [post_to_slack, postSucceeds, h]

theorem save_to_file_isSome (m : List Message) (s : GenResult) (w : Bool) :
    (save_to_file m s w).isSome = w := by
  cases w <;> simp [save_to_file]

/-- The aggregate result of a run, in closed form, on every run whose
publishing step (if reached) formats without raising. -/
theorem process_channel_result (env : Env) (sT eT : DT) (postFlag : Bool)
    (h : postFlag = true → truthy (genOf env) = true →
      exOk (format_slack_message (genOf env) sT eT) = true) :
    (process_channel env sT eT postFlag).1 =
      .ok (truthy (genOf env) && (env.writeOk && (!postFlag || postSucceeds env))) := by
  simp only [process_channel]
  cases ht : truthy (genOf env) with
  | false =>
    simp only [genOf] at ht
    simp [ht]
  | true =>
    simp only [genOf] at ht
    cases postFlag with
    | false =>
      simp [ht, save_to_file_isSome, genOf]
    | true =>
      have hfmt := h rfl (by simpa [genOf] using ht)
      cases hf : format_slack_message (genOf env) sT eT with
      | error e => simp [exOk, hf] at hfmt
      | ok blocks =>
        simp only [genOf] at hf
        simp [ht, hf, save_to_file_isSome, post_to_slack_eq, genOf]

/-- The publishing step is reached (a post call appears in the trace) on
every publishing run with a truthy summary that formats without raising. -/
theorem process_channel_posts (env : Env) (sT eT : DT)
    (ht : truthy (genOf env) = true)
    (hfmt : exOk (format_slack_message (genOf env) sT eT) = true) :
    Call.postCall ∈ (process_channel env sT eT true).2 := by
  simp only [process_channel]
  simp only [genOf] at ht
  cases hf : format_slack_message (genOf env) sT eT with
  | error e => simp [exOk, hf] at hfmt
  | ok blocks =>
    simp only [genOf] at hf
    simp [ht, hf]

/-- C2 counterexample: the model answers `\x7b\x7d`, so the generator returns
the non-null empty dict; publishing is not requested and the file write would
succeed, yet the run reports failure — the code tests Python truthiness
(`if summary:`), not nullness, so the claimed AND (non-null ∧ write-success)
predicts success while the code returns `False` without even writing. -/
theorem claim_C2_counterexample :
    (process_channel ⟨[Except.ok ⟨[⟨1, strL "hi"⟩], false, []⟩],
        Except.ok (strL "\x7b\x7d"), true, Except.ok ()⟩
        ⟨2024, 1, 1, 0, 0⟩ ⟨2024, 1, 2, 0, 0⟩ false).1 = .ok false ∧
    genOf ⟨[Except.ok ⟨[⟨1, strL "hi"⟩], false, []⟩],
        Except.ok (strL "\x7b\x7d"), true, Except.ok ()⟩ ≠ GenResult.fail ∧
    Env.writeOk ⟨[Except.ok ⟨[⟨1, strL "hi"⟩], false, []⟩],
        Except.ok (strL "\x7b\x7d"), true, Except.ok ()⟩ = true :=
  ⟨by decide, by decide, by decide⟩

/-- C2 (amended): on every run whose publishing step (if reached) formats
without raising, the overall result is the boolean AND of "the generator's
result is truthy (non-null and non-empty)", "the file write succeeded", and —
only when publishing was requested — "the post succeeded"; in particular a
null generator result makes the run fail. -/
theorem claim_C2_success_formula (env : Env) (sT eT : DT) (postFlag : Bool)
    (h : postFlag = true → truthy (genOf env) = true →
      exOk (format_slack_message (genOf env) sT eT) = true) :
    (process_channel env sT eT postFlag).1 =
      .ok (truthy (genOf env) && (env.writeOk && (!postFlag || postSucceeds env))) :=
  process_channel_result env sT eT postFlag h

/-- C2 witness: a publishing run with a proper digest, successful write and
successful post. -/
theorem claim_C2_witness :
    (process_channel ⟨[Except.ok ⟨[⟨1, strL "m"⟩], false, []⟩],
        Except.ok (strL "\x7b\"summary\": \"s\", \"action_items\": [\"a\"], \"decisions\": []\x7d"),
        true, Except.ok ()⟩ ⟨2024, 1, 1, 0, 0⟩ ⟨2024, 1, 2, 0, 0⟩ true).1 =
      .ok (truthy (genOf ⟨[Except.ok ⟨[⟨1, strL "m"⟩], false, []⟩],
        Except.ok (strL "\x7b\"summary\": \"s\", \"action_items\": [\"a\"], \"decisions\": []\x7d"),
        true, Except.ok ()⟩) &&
        (true && (!true || postSucceeds ⟨[Except.ok ⟨[⟨1, strL "m"⟩], false, []⟩],
          Except.ok (strL "\x7b\"summary\": \"s\", \"action_items\": [\"a\"], \"decisions\": []\x7d"),
          true, Except.ok ()⟩))) :=
  claim_C2_success_formula _ ⟨2024, 1, 1, 0, 0⟩ ⟨2024, 1, 2, 0, 0⟩ true
    (fun _ _ => by decide)

/-- C3 counterexample: an empty message collection with publishing requested
— the very case the claim includes — raises an uncaught `TypeError`: the
generator's sentinel *string* is truthy, survives `if summary:`, and
`format_slack_message` subscripts it like a dict, so the orchestrator
propagates an exception instead of returning a boolean. -/
theorem claim_C3_counterexample :
    (process_channel ⟨[Except.ok ⟨[], false, []⟩], Except.ok (strL "x"),
        true, Except.ok ()⟩ ⟨2024, 1, 1, 0, 0⟩ ⟨2024, 1, 2, 0, 0⟩ true).1 =
      .error PyErr.typeError :=
  by decide

/-- C3 (amended): the fetcher, generator, writer and poster each catch their
own failure domain, so the orchestrator returns a boolean on every run except
when a publishing run's block-formatting step raises (that step has no
handler); on every run whose publishing step (if reached) formats without
raising, no exception escapes. -/
theorem claim_C3_no_exception (env : Env) (sT eT : DT) (postFlag : Bool)
    (h : postFlag = true → truthy (genOf env) = true →
      exOk (format_slack_message (genOf env) sT eT) = true) :
    ∃ b : Bool, (process_channel env sT eT postFlag).1 = .ok b :=
  ⟨truthy (genOf env) && (env.writeOk && (!postFlag || postSucceeds env)),
   process_channel_result env sT eT postFlag h⟩

/-- C3 witness: a publishing run over a proper digest returns a boolean. -/
theorem claim_C3_witness :
    ∃ b : Bool, (process_channel ⟨[Except.ok ⟨[⟨1, strL "m"⟩], false, []⟩],
      Except.ok (strL "\x7b\"summary\": \"s\", \"action_items\": [], \"decisions\": [\"d\"]\x7d"),
      true, Except.ok ()⟩ ⟨2024, 1, 1, 0, 0⟩ ⟨2024, 1, 2, 0, 0⟩ true).1 = .ok b :=
  claim_C3_no_exception _ ⟨2024, 1, 1, 0, 0⟩ ⟨2024, 1, 2, 0, 0⟩ true
    (fun _ _ => by decide)

/-- C10 counterexample: with no messages fetched (so the generator returns
the non-null sentinel), publishing requested and a failing write, the
orchestrator does *not* attempt the post — formatting the sentinel raises a
`TypeError` first — and the overall result is an exception, not a failure
boolean. -/
theorem claim_C10_counterexample :
    (process_channel ⟨[Except.ok ⟨[], false, []⟩], Except.ok (strL "x"),
        false, Except.ok ()⟩ ⟨2024, 1, 1, 0, 0⟩ ⟨2024, 1, 2, 0, 0⟩ true).1 =
      .error PyErr.typeError ∧
    Call.postCall ∉ (process_channel ⟨[Except.ok ⟨[], false, []⟩],
        Except.ok (strL "x"), false, Except.ok ()⟩
        ⟨2024, 1, 1, 0, 0⟩ ⟨2024, 1, 2, 0, 0⟩ true).2 :=
  ⟨by decide, by decide⟩

/-- C10 (amended): on every publishing run whose generator result is truthy
and formats without raising, a failed file write does not short-circuit the
publish step — the post call still appears in the trace — and the overall
result is failure. -/
theorem claim_C10_post_attempted (env : Env) (sT eT : DT)
    (ht : truthy (genOf env) = true)
    (hfmt : exOk (format_slack_message (genOf env) sT eT) = true)
    (hw : env.writeOk = false) :
    (process_channel env sT eT true).1 = .ok false ∧
      Call.postCall ∈ (process_channel env sT eT true).2 := by
  constructor
  · have h := process_channel_result env sT eT true (fun _ _ => hfmt)
    rw [h, ht, hw]
    simp
  · exact process_channel_posts env sT eT ht hfmt

/-- C10 witness: a proper digest, a failing write, publishing requested —
the post is attempted and the run fails. -/
theorem claim_C10_witness :
    (process_channel ⟨[Except.ok ⟨[⟨1, strL "m"⟩], false, []⟩],
        Except.ok (strL "\x7b\"summary\": \"s\", \"action_items\": [], \"decisions\": []\x7d"),
        false, Except.ok ()⟩ ⟨2024, 1, 1, 0, 0⟩ ⟨2024, 1, 2, 0, 0⟩ true).1 =
      .ok false ∧
    Call.postCall ∈ (process_channel ⟨[Except.ok ⟨[⟨1, strL "m"⟩], false, []⟩],
        Except.ok (strL "\x7b\"summary\": \"s\", \"action_items\": [], \"decisions\": []\x7d"),
        false, Except.ok ()⟩ ⟨2024, 1, 1, 0, 0⟩ ⟨2024, 1, 2, 0, 0⟩ true).2 :=
  claim_C10_post_attempted _ ⟨2024, 1, 1, 0, 0⟩ ⟨2024, 1, 2, 0, 0⟩
    (by decide) (by decide) (by decide)

/-! ## Round-trip of the string escaping -/

theorem char_toNat_valid (c : Char) :
    c.toNat < 0xd800 ∨ (0xdfff < c.toNat ∧ c.toNat < 0x110000) := by
  have h := c.valid
  rcases h with h | h
  · left; exact h
  · right; exact h

theorem hexVal_hexDig : ∀ n < 16, hexVal (hexDig n) = some n := by decide

theorem parseRawUnits_uescape (n : Nat) (hn : n < 0x10000) (tail : List Char) :
    parseRawUnits ('\\' :: 'u' :: hex4 n ++ tail) =
      (parseRawUnits tail).map (fun p => (n :: p.1, p.2)) := by
  have h1 : hexVal (hexDig (n / 4096 % 16)) = some (n / 4096 % 16) :=
    hexVal_hexDig _ (Nat.mod_lt _ (by norm_num))
  have h2 : hexVal (hexDig (n / 256 % 16)) = some (n / 256 % 16) :=
    hexVal_hexDig _ (Nat.mod_lt _ (by norm_num))
  have h3 : hexVal (hexDig (n / 16 % 16)) = some (n / 16 % 16) :=
    hexVal_hexDig _ (Nat.mod_lt _ (by norm_num))
  have h4 : hexVal (hexDig (n % 16)) = some (n % 16) :=
    hexVal_hexDig _ (Nat.mod_lt _ (by norm_num))
  have hval : ((n / 4096 % 16 * 16 + n / 256 % 16) * 16 + n / 16 % 16) * 16 + n % 16 = n := by
    omega
  simp only [hex4, List.cons_append, List.nil_append, parseRawUnits]
  simp [parseEscape, parseHex4Units, h1, h2, h3, h4, hval]

theorem parseRawUnits_escChar (c : Char) (x : List Char) :
    parseRawUnits (escChar c ++ x) =
      (parseRawUnits x).map (fun p => (unitChar c ++ p.1, p.2)) := by
  by_cases h1 : c = '"'
  · subst h1; simp [escChar, parseRawUnits, parseEscape, unescChar, unitChar]
  by_cases h2 : c = '\\'
  · subst h2; simp [escChar, parseRawUnits, parseEscape, unescChar, unitChar]
  by_cases h3 : c = '\n'
  · subst h3; simp [escChar, parseRawUnits, parseEscape, unescChar, unitChar]
  by_cases h4 : c = '\t'
  · subst h4; simp [escChar, parseRawUnits, parseEscape, unescChar, unitChar]
  by_cases h5 : c = '\r'
  · subst h5; simp [escChar, parseRawUnits, parseEscape, unescChar, unitChar]
  by_cases h6 : c = Char.ofNat 8
  · subst h6; simp [escChar, parseRawUnits, parseEscape, unescChar, unitChar]
  by_cases h7 : c = Char.ofNat 12
  · subst h7; simp [escChar, parseRawUnits, parseEscape, unescChar, unitChar]
  by_cases h8 : c.toNat < 0x20
  · have hesc : escChar c = '\\' :: 'u' :: hex4 c.toNat := by
      simp only [escChar, if_neg h1, if_neg h2, if_neg h3, if_neg h4, if_neg h5,
        if_neg h6, if_neg h7, if_pos h8]
    have hu : unitChar c = [c.toNat] := by
      simp only [unitChar, if_pos (show c.toNat < 0x10000 by omega)]
    rw [hesc, hu, parseRawUnits_uescape c.toNat (by omega) x]
    simp
  by_cases h9 : c.toNat < 0x7f
  · have hesc : escChar c = [c] := by
      simp only [escChar, if_neg h1, if_neg h2, if_neg h3, if_neg h4, if_neg h5,
        if_neg h6, if_neg h7, if_neg h8, if_pos h9]
    have hu : unitChar c = [c.toNat] := by
      simp only [unitChar, if_pos (show c.toNat < 0x10000 by omega)]
    rw [hesc, hu]
    simp only [List.cons_append, List.nil_append, parseRawUnits,
      if_neg h1, if_neg h2, if_neg h8]
    simp
  by_cases h10 : c.toNat < 0x10000
  · have hesc : escChar c = '\\' :: 'u' :: hex4 c.toNat := by
      simp only [escChar, if_neg h1, if_neg h2, if_neg h3, if_neg h4, if_neg h5,
        if_neg h6, if_neg h7, if_neg h8, if_neg h9, if_pos h10]
    have hu : unitChar c = [c.toNat] := by
      simp only [unitChar, if_pos h10]
    rw [hesc, hu, parseRawUnits_uescape c.toNat h10 x]
    simp
  · have hval := char_toNat_valid c
    have hesc : escChar c =
        ('\\' :: 'u' :: hex4 (0xd800 + (c.toNat - 0x10000) / 0x400)) ++
        ('\\' :: 'u' :: hex4 (0xdc00 + (c.toNat - 0x10000) % 0x400)) := by
      simp only [escChar, if_neg h1, if_neg h2, if_neg h3, if_neg h4, if_neg h5,
        if_neg h6, if_neg h7, if_neg h8, if_neg h9, if_neg h10]
    have hu : unitChar c =
        [0xd800 + (c.toNat - 0x10000) / 0x400, 0xdc00 + (c.toNat - 0x10000) % 0x400] := by
      simp only [unitChar, if_neg h10]
    have hhi : 0xd800 + (c.toNat - 0x10000) / 0x400 < 0x10000 := by omega
    have hlo : 0xdc00 + (c.toNat - 0x10000) % 0x400 < 0x10000 := by omega
    rw [hesc, hu]
    rw [List.append_assoc]
    rw [parseRawUnits_uescape _ hhi]
    rw [parseRawUnits_uescape _ hlo]
    cases parseRawUnits x <;> rfl

theorem parseRawUnits_escape (s : List Char) (rest : List Char) :
    parseRawUnits (escape s ++ '"' :: rest) = some (unitsOf s, rest) := by
  induction s with
  | nil => simp [escape, unitsOf, parseRawUnits]
  | cons c s' ih =>
    have hs : escape (c :: s') ++ '"' :: rest =
        escChar c ++ (escape s' ++ '"' :: rest) := by
      simp [escape, List.flatMap_cons, List.append_assoc]
    rw [hs, parseRawUnits_escChar, ih]
    simp [unitsOf, List.flatMap_cons]

theorem combineSurrogates_unitsOf (s : List Char) :
    combineSurrogates (unitsOf s) = some s := by
  induction s with
  | nil => simp [unitsOf, combineSurrogates]
  | cons c s' ih =>
    have hval := char_toNat_valid c
    have hs : unitsOf (c :: s') = unitChar c ++ unitsOf s' := by
      simp [unitsOf, List.flatMap_cons]
    rw [hs]
    by_cases hc : c.toNat < 0x10000
    · have hu : unitChar c = [c.toNat] := by simp [unitChar]; omega
      rw [hu]
      have hns1 : ¬ (0xd800 ≤ c.toNat ∧ c.toNat ≤ 0xdbff) := by omega
      have hns2 : ¬ (0xdc00 ≤ c.toNat ∧ c.toNat ≤ 0xdfff) := by omega
      simp only [List.cons_append, List.nil_append, combineSurrogates,
        if_neg hns1, if_neg hns2]
      simp [ih, Char.ofNat_toNat]
    · have hu : unitChar c =
          [0xd800 + (c.toNat - 0x10000) / 0x400, 0xdc00 + (c.toNat - 0x10000) % 0x400] := by
        simp [unitChar]; omega
      rw [hu]
      have hhi : 0xd800 ≤ 0xd800 + (c.toNat - 0x10000) / 0x400 ∧
          0xd800 + (c.toNat - 0x10000) / 0x400 ≤ 0xdbff := by omega
      have hlo : 0xdc00 ≤ 0xdc00 + (c.toNat - 0x10000) % 0x400 ∧
          0xdc00 + (c.toNat - 0x10000) % 0x400 ≤ 0xdfff := by omega
      have hcomb : (0xd800 + (c.toNat - 0x10000) / 0x400 - 0xd800) * 0x400 +
          (0xdc00 + (c.toNat - 0x10000) % 0x400 - 0xdc00) + 0x10000 = c.toNat := by
        omega
      simp only [List.cons_append, List.nil_append, combineSurrogates,
        if_pos hhi]
      have hcomb2 : (c.toNat - 65536) / 1024 * 1024 + (c.toNat - 65536) % 1024 + 65536 =
          c.toNat := by omega
      simp [combineLow, ih, hcomb2, Char.ofNat_toNat]
      try omega

theorem parseStringBody_escape (s : List Char) (rest : List Char) :
    parseStringBody (escape s ++ '"' :: rest) = some (s, rest) := by
  simp [parseStringBody, parseRawUnits_escape, combineSurrogates_unitsOf]

/-! ## Round-trip of `parseJson` over `dumps` output (digest-shaped values) -/

theorem skipWs_replicate (n : Nat) (x : List Char) :
    skipWs (List.replicate n ' ' ++ x) = skipWs x := by
  induction n with
  | zero => simp
  | succ n ih => simp [List.replicate, skipWs, wsChar, ih]

theorem skipWs_nlInd (lvl : Nat) (x : List Char) :
    skipWs (nlInd lvl ++ x) = skipWs x := by
  simp [nlInd, skipWs, wsChar, skipWs_replicate]

theorem skipWs_cons (c : Char) (x : List Char) (h : wsChar c = false) :
    skipWs (c :: x) = c :: x := by
  simp [skipWs, h]

theorem parseValue_jstr (f : Nat) (s rest : List Char) :
    parseValue (f + 1) ('"' :: (escape s ++ '"' :: rest)) = some (jstr s, rest) := by
  simp only [parseValue]
  simp [parseStringBody_escape]

theorem parseValue_jstr_fuel (f : Nat) (s rest : List Char) (hf : 1 ≤ f) :
    parseValue f ('"' :: (escape s ++ '"' :: rest)) = some (jstr s, rest) := by
  obtain ⟨g, rfl⟩ : ∃ g, f = g + 1 := ⟨f - 1, by omega⟩
  exact parseValue_jstr g s rest

theorem parseElems_strings (xs : List (List Char)) :
    ∀ (x : List Char) (acc : List JVal) (f : Nat) (rest : List Char),
      xs.length + 2 ≤ f →
      parseElems f acc
        ('"' :: (escape x ++ '"' ::
          (dumpsArr 2 (xs.map jstr) ++ (nlInd 1 ++ ']' :: rest)))) =
        some (jarr (acc ++ jstr x :: xs.map jstr), rest) := by
  induction xs with
  | nil =>
    intro x acc f rest hf
    obtain ⟨g, rfl⟩ : ∃ g, f = g + 1 := ⟨f - 1, by omega⟩
    have hvx : ∀ t : List Char,
        parseValue g ('"' :: (escape x ++ '"' :: t)) = some (jstr x, t) :=
      fun t => parseValue_jstr_fuel g x t (by omega)
    simp only [List.map_nil, dumpsArr, List.nil_append]
    simp only [parseElems, hvx, skipWs_nlInd, skipWs, wsChar]
    simp
  | cons x2 xs' ih =>
    intro x acc f rest hf
    obtain ⟨g, rfl⟩ : ∃ g, f = g + 1 := ⟨f - 1, by omega⟩
    have hvx : ∀ t : List Char,
        parseValue g ('"' :: (escape x ++ '"' :: t)) = some (jstr x, t) :=
      fun t => parseValue_jstr_fuel g x t (by omega)
    have ih' : ∀ acc2 : List JVal,
        parseElems g acc2
          ('"' :: (escape x2 ++ '"' ::
            (dumpsArr 2 (xs'.map jstr) ++ (nlInd 1 ++ ']' :: rest)))) =
          some (jarr (acc2 ++ jstr x2 :: xs'.map jstr), rest) :=
      fun acc2 => ih x2 acc2 g rest (by have h2 := hf; simp at h2; omega)
    simp only [List.map_cons, dumpsArr, dumpsV, List.cons_append, List.nil_append,
      List.append_assoc]
    simp only [parseElems, hvx, skipWs_nlInd, skipWs, wsChar]
    simp [ih', skipWs_nlInd, skipWs, wsChar, List.append_assoc]

theorem parseValue_strarr (l : List (List Char)) (f : Nat) (rest : List Char)
    (hf : l.length + 4 ≤ f) :
    parseValue f (dumpsV 1 (jarr (l.map jstr)) ++ rest) =
      some (jarr (l.map jstr), rest) := by
  cases l with
  | nil =>
    obtain ⟨g, rfl⟩ : ∃ g, f = g + 2 := ⟨f - 2, by omega⟩
    simp only [List.map_nil, dumpsV, strL]
    simp only [List.cons_append, List.nil_append]
    simp only [parseValue]
    rw [show skipWs (']' :: rest) = ']' :: rest from skipWs_cons ']' rest (by decide)]
    simp [parseArrStart]
  | cons x xs =>
    obtain ⟨g, rfl⟩ : ∃ g, f = g + 2 := ⟨f - 2, by omega⟩
    have helems : ∀ acc2 : List JVal,
        parseElems g acc2
          ('"' :: (escape x ++ '"' ::
            (dumpsArr 2 (xs.map jstr) ++ (nlInd 1 ++ ']' :: rest)))) =
          some (jarr (acc2 ++ jstr x :: xs.map jstr), rest) :=
      fun acc2 => parseElems_strings xs x acc2 g rest (by simp at hf; omega)
    simp only [List.map_cons, dumpsV, List.cons_append, List.nil_append,
      List.append_assoc]
    simp only [parseValue, parseArrStart, skipWs_nlInd, skipWs, wsChar]
    simp [helems]

theorem skipWs_space (x : List Char) : skipWs (' ' :: x) = skipWs x := by
  simp [skipWs, wsChar]

theorem parseMembers_step_mid (f : Nat) (acc : List (List Char × JVal))
    (k : List Char) (v : JVal) (vd more : List Char)
    (hv : ∀ r : List Char, parseValue f (vd ++ r) = some (v, r))
    (hskip : ∀ r : List Char, skipWs (vd ++ r) = vd ++ r) :
    parseMembers (f + 1) acc
      ('"' :: (escape k ++ '"' :: ':' :: ' ' :: (vd ++ (',' :: (nlInd 1 ++ more))))) =
      parseMembers f (objInsert acc k v) (skipWs more) := by
  simp only [parseMembers, parseStringBody_escape]
  rw [show skipWs (':' :: ' ' :: (vd ++ (',' :: (nlInd 1 ++ more)))) =
      ':' :: ' ' :: (vd ++ (',' :: (nlInd 1 ++ more))) from skipWs_cons _ _ (by decide)]
  simp only [skipWs_space, hskip, hv]
  rw [show skipWs (',' :: (nlInd 1 ++ more)) = ',' :: (nlInd 1 ++ more) from
    skipWs_cons _ _ (by decide)]
  simp [skipWs_nlInd]

theorem parseMembers_step_last (f : Nat) (acc : List (List Char × JVal))
    (k : List Char) (v : JVal) (vd rest : List Char)
    (hv : ∀ r : List Char, parseValue f (vd ++ r) = some (v, r))
    (hskip : ∀ r : List Char, skipWs (vd ++ r) = vd ++ r) :
    parseMembers (f + 1) acc
      ('"' :: (escape k ++ '"' :: ':' :: ' ' :: (vd ++ (nlInd 0 ++ '\x7d' :: rest)))) =
      some (jobj (objInsert acc k v), rest) := by
  simp only [parseMembers, parseStringBody_escape]
  rw [show skipWs (':' :: ' ' :: (vd ++ (nlInd 0 ++ '\x7d' :: rest))) =
      ':' :: ' ' :: (vd ++ (nlInd 0 ++ '\x7d' :: rest)) from skipWs_cons _ _ (by decide)]
  simp only [skipWs_space, hskip, hv]
  rw [show skipWs (nlInd 0 ++ '\x7d' :: rest) = skipWs ('\x7d' :: rest) from
    skipWs_nlInd 0 _]
  rw [show skipWs ('\x7d' :: rest) = '\x7d' :: rest from skipWs_cons _ _ (by decide)]
  simp

theorem parseValue_obj_start (f : Nat) (t : List Char) :
    parseValue (f + 1) ('\x7b' :: t) = parseObjStart f (skipWs t) := by
  simp [parseValue]

theorem parseObjStart_members (f : Nat) (t : List Char) :
    parseObjStart (f + 1) ('"' :: t) = parseMembers f [] ('"' :: t) := by
  simp [parseObjStart]

theorem parseMembers_step_mid_str (f : Nat) (acc : List (List Char × JVal))
    (k s more : List Char) (hf : 1 ≤ f) :
    parseMembers (f + 1) acc
      ('"' :: (escape k ++ '"' :: ':' :: ' ' ::
        '"' :: (escape s ++ '"' :: ',' :: (nlInd 1 ++ more)))) =
      parseMembers f (objInsert acc k (jstr s)) (skipWs more) := by
  have hv : ∀ r : List Char,
      parseValue f (('"' :: (escape s ++ ['"'])) ++ r) = some (jstr s, r) := by
    intro r
    have := parseValue_jstr_fuel f s r hf
    simpa [List.append_assoc] using this
  have hskip : ∀ r : List Char,
      skipWs (('"' :: (escape s ++ ['"'])) ++ r) = ('"' :: (escape s ++ ['"'])) ++ r := by
    intro r
    exact skipWs_cons _ _ (by decide)
  have h := parseMembers_step_mid f acc k (jstr s) ('"' :: (escape s ++ ['"'])) more hv hskip
  simpa [List.append_assoc] using h

theorem skipWs_strarr (l : List JVal) (r : List Char) :
    skipWs (dumpsV 1 (jarr l) ++ r) = dumpsV 1 (jarr l) ++ r := by
  cases l with
  | nil => simp [dumpsV, strL, skipWs, wsChar]
  | cons x xs =>
    simp only [dumpsV, List.cons_append, List.append_assoc]
    exact skipWs_cons _ _ (by decide)

theorem parseValue_dumps_digest (d : Digest) (f : Nat) (rest : List Char)
    (hf : d.action_items.length + d.decisions.length + 10 ≤ f) :
    parseValue f (dumps (digestToJVal d) ++ rest) = some (digestToJVal d, rest) := by
  obtain ⟨g, rfl⟩ : ∃ g, f = g + 5 := ⟨f - 5, by omega⟩
  have hv2 : ∀ r : List Char,
      parseValue (g + 1) (dumpsV 1 (jarr (d.action_items.map jstr)) ++ r) =
        some (jarr (d.action_items.map jstr), r) :=
    fun r => parseValue_strarr d.action_items (g + 1) r (by omega)
  have hs2 : ∀ r : List Char,
      skipWs (dumpsV 1 (jarr (d.action_items.map jstr)) ++ r) =
        dumpsV 1 (jarr (d.action_items.map jstr)) ++ r :=
    fun r => skipWs_strarr _ r
  have hv3 : ∀ r : List Char,
      parseValue g (dumpsV 1 (jarr (d.decisions.map jstr)) ++ r) =
        some (jarr (d.decisions.map jstr), r) :=
    fun r => parseValue_strarr d.decisions g r (by omega)
  have hs3 : ∀ r : List Char,
      skipWs (dumpsV 1 (jarr (d.decisions.map jstr)) ++ r) =
        dumpsV 1 (jarr (d.decisions.map jstr)) ++ r :=
    fun r => skipWs_strarr _ r
  simp only [dumps, digestToJVal, dumpsV, dumpsObj, dumpsKV, List.cons_append,
    List.nil_append, List.append_assoc, Nat.zero_add]
  rw [show g + 5 = (g + 4) + 1 from rfl, parseValue_obj_start]
  rw [skipWs_nlInd]
  rw [skipWs_cons '"' _ (by decide)]
  rw [show g + 4 = (g + 3) + 1 from rfl, parseObjStart_members]
  rw [show g + 3 = (g + 2) + 1 from rfl,
    parseMembers_step_mid_str (g + 2) [] (strL "summary") d.summary _ (by omega)]
  rw [skipWs_cons '"' _ (by decide)]
  rw [show g + 2 = (g + 1) + 1 from rfl,
    parseMembers_step_mid (g + 1) _ (strL "action_items") _ _ _ hv2 hs2]
  rw [skipWs_cons '"' _ (by decide)]
  rw [parseMembers_step_last g _ (strL "decisions") _ _ _ hv3 hs3]
  have hne1 : strL "summary" = strL "action_items" ↔ False := by
    constructor
    · intro h; exact absurd h (by decide)
    · intro h; exact h.elim
  have hne2 : strL "summary" = strL "decisions" ↔ False := by
    constructor
    · intro h; exact absurd h (by decide)
    · intro h; exact h.elim
  have hne3 : strL "action_items" = strL "decisions" ↔ False := by
    constructor
    · intro h; exact absurd h (by decide)
    · intro h; exact h.elim
  simp [objInsert, hne1, hne2, hne3]

theorem length_dumpsArr_ge (lvl : Nat) (ls : List JVal) :
    ls.length ≤ (dumpsArr lvl ls).length := by
  induction ls with
  | nil => simp [dumpsArr]
  | cons x xs ih =>
    simp only [dumpsArr, List.length_cons, List.length_append]
    omega

theorem length_dumpsV_strarr_ge (l : List JVal) :
    l.length ≤ (dumpsV 1 (jarr l)).length := by
  cases l with
  | nil => simp [dumpsV, strL]
  | cons x xs =>
    have h := length_dumpsArr_ge (1 + 1) xs
    simp only [dumpsV, List.length_cons, List.length_append]
    omega

theorem parseJson_dumps_digest (d : Digest) :
    parseJson (dumps (digestToJVal d)) = some (digestToJVal d) := by
  have hlen : d.action_items.length + d.decisions.length + 10 ≤
      (dumps (digestToJVal d)).length + 1 := by
    have h2 := length_dumpsV_strarr_ge (d.action_items.map jstr)
    have h3 := length_dumpsV_strarr_ge (d.decisions.map jstr)
    simp only [List.length_map] at h2 h3
    simp only [dumps, digestToJVal, dumpsV, dumpsObj, dumpsKV, nlInd,
      List.length_append, List.length_cons, List.length_replicate, Nat.zero_add]
    omega
  have hskip : skipWs (dumps (digestToJVal d)) = dumps (digestToJVal d) := by
    simp only [dumps, digestToJVal, dumpsV, List.cons_append, List.append_assoc]
    exact skipWs_cons _ _ (by decide)
  have hwalk := parseValue_dumps_digest d ((dumps (digestToJVal d)).length + 1) [] hlen
  rw [List.append_nil] at hwalk
  simp only [parseJson, hskip, hwalk]
  simp [skipWs]

theorem leads_self (p t : List Char) : leads p (p ++ t) = true := by
  induction p with
  | nil => rfl
  | cons c p' ih => simp [leads, ih]

theorem afterFirst_exact (marker pre tail : List Char) (hm : marker ≠ [])
    (h : ∀ k, k < pre.length →
      leads marker ((pre ++ marker ++ tail).drop k) = false) :
    afterFirst marker (pre ++ marker ++ tail) = some tail := by
  induction pre with
  | nil =>
    simp only [List.nil_append]
    obtain ⟨m, ms, rfl⟩ : ∃ m ms, marker = m :: ms := by
      cases marker with
      | nil => exact absurd rfl hm
      | cons m ms => exact ⟨m, ms, rfl⟩
    simp only [List.cons_append, afterFirst, List.append_eq]
    rw [show leads (m :: ms) (m :: (ms ++ tail)) = true from by
      simpa using leads_self (m :: ms) tail]
    simp [List.drop_left]
  | cons c pre' ih =>
    simp only [List.cons_append, afterFirst, List.append_eq, List.append_assoc]
    have h0 := h 0 (by simp)
    simp only [List.cons_append, List.drop_zero, List.append_assoc] at h0
    rw [h0]
    simp only [Bool.false_eq_true, if_false]
    have ih' := ih (fun k hk => by
      have hk1 := h (k + 1) (by simp; omega)
      simpa [List.cons_append] using hk1)
    simpa [List.append_assoc] using ih'

/-- C9: writing a digest with the Writer and re-reading the artifact file's
JSON section (the text after the first summary-section header) parses back to
a JSON object field-for-field equal to the original digest — provided the
transcript section does not itself spuriously contain the summary-section
header line. -/
theorem claim_C9_roundtrip (msgs : List Message) (d : Digest)
    (h : ∀ k, k < (filePre msgs).length →
      leads summaryMarker
        ((fileContent msgs (GenResult.data (digestToJVal d))).drop k) = false) :
    readSummaryJson (fileContent msgs (GenResult.data (digestToJVal d))) =
      some (digestToJVal d) := by
  have hfc : fileContent msgs (GenResult.data (digestToJVal d)) =
      filePre msgs ++ summaryMarker ++ dumps (digestToJVal d) := by
    simp [fileContent, summaryToJVal, List.append_assoc]
  rw [hfc] at h
  simp only [readSummaryJson, hfc]
  rw [afterFirst_exact summaryMarker (filePre msgs) (dumps (digestToJVal d))
    (by decide) h]
  simp [parseJson_dumps_digest]

/-- C9 witness: one message, a digest with one action item — the file's JSON
section parses back to the digest. -/
theorem claim_C9_witness :
    readSummaryJson (fileContent [⟨1, strL "hi"⟩]
        (GenResult.data (digestToJVal ⟨strL "s", [strL "a"], []⟩))) =
      some (digestToJVal ⟨strL "s", [strL "a"], []⟩) :=
  claim_C9_roundtrip [⟨1, strL "hi"⟩] ⟨strL "s", [strL "a"], []⟩ (by decide)
